import Mathlib

/-!
Verification development for the kloudmate/polylang-detector repository.

Shallow embedding conventions:
* Go strings are Lean `String`; Go `map[string]string` is `String → Option String`;
  Go slices are Lean `List`; `time.Time` stamps are abstract `Nat` ticks.
* Fallible Go functions returning `(T, error)` become `Except String T`.
* External effects (Kubernetes API lookups, `/proc` reads, the SHA-256 hex digest,
  RPC dial/call outcomes) are passed in as explicit oracle parameters, so every
  definition stays a computable function of its inputs.
* Pointer aliasing that is observable through the cache is made explicit as a
  store update (see `DetectLanguageForPod`).
-/

namespace Polylang

/-- detector/process/process.go: snapshot of a live process (`ProcessContext`). -/
structure ProcessContext where
  PID : Nat
  PPID : Nat
  Executable : String
  Cmdline : String
  Environ : String → Option String

/-- detector/inspectors (part_016): `DetectionResult`. `Language` is a string type
in the source (`type Language string`), so it is embedded as `String`. -/
structure DetectionResult where
  Language : String
  Framework : String
  Version : String
  Confidence : String
  deriving DecidableEq, Repr

/-- detector/inspectors (part_016): the `LanguageInspector` interface, embedded as a
record of its three methods.  `QuickScan`/`DeepScan` return `*DetectionResult`
(nil-able), hence `Option`. -/
structure LanguageInspector where
  GetLanguage : String
  QuickScan : ProcessContext → Option DetectionResult
  DeepScan : ProcessContext → Option DetectionResult

/-- detector/inspectors/detector.go: `LanguageDetector` holds the inspector list. -/
structure LanguageDetector where
  inspectors : List LanguageInspector

/-- detector/inspectors/detector.go, `Detect` stage 1: the non-nil `QuickScan` results,
in inspector order. -/
def quickResults (ld : LanguageDetector) (ctx : ProcessContext) : List DetectionResult :=
  ld.inspectors.filterMap (fun i => i.QuickScan ctx)

/-- detector/inspectors/detector.go, `Detect` stage 2: the non-nil `DeepScan` results,
in inspector order. -/
def deepResults (ld : LanguageDetector) (ctx : ProcessContext) : List DetectionResult :=
  ld.inspectors.filterMap (fun i => i.DeepScan ctx)

/-- detector/inspectors/detector.go, loop body of `selectBestResult`: one comparison
step of the running best against the next result. -/
def selectBestStep (best result : DetectionResult) : DetectionResult :=
  if result.Confidence == "high" && best.Confidence != "high" then result
  else if result.Confidence == best.Confidence && result.Framework != "" && best.Framework == "" then
    result
  else if result.Confidence == best.Confidence && result.Version != "" && best.Version == "" then
    result
  else best

/-- detector/inspectors/detector.go: `selectBestResult` (`best := results[0]`, then the
comparison loop over `results[1:]`). -/
def selectBestResult : List DetectionResult → Option DetectionResult
  | [] => none
  | r :: rest => some (rest.foldl selectBestStep r)

/-- detector/inspectors/detector.go: the `allSame` check inside `Detect` (compare every
later result's `Language` with the first one's). -/
def allSameLanguage : List DetectionResult → Bool
  | [] => true
  | r :: rest => rest.all (fun s => s.Language == r.Language)

/-- detector/inspectors/detector.go: the shared singleton / same-language / conflict
logic of `Detect` stage 2 (`deepResults`).  Errors carry the `Languages` list of
`ErrLanguageDetectionConflict`. -/
def detectDeepStage (ld : LanguageDetector) (ctx : ProcessContext) :
    Except (List String) DetectionResult :=
  match deepResults ld ctx with
  | [] =>
    Except.ok { Language := "Unknown", Framework := "", Version := "", Confidence := "low" }
  | [r] => Except.ok r
  | r1 :: r2 :: rest =>
    if allSameLanguage (r1 :: r2 :: rest) then
      Except.ok ((r2 :: rest).foldl selectBestStep r1)
    else
      Except.error ((r1 :: r2 :: rest).map DetectionResult.Language)

/-- detector/inspectors/detector.go: `Detect`.  Stage 1 consumes the quick results:
a single high-confidence result is returned outright; two or more results are
resolved by the same-language check (best by `selectBestResult`) or reported as a
conflict error carrying the language list; otherwise stage 2 (`detectDeepStage`)
runs the deep scans. -/
def detect (ld : LanguageDetector) (ctx : ProcessContext) :
    Except (List String) DetectionResult :=
  match quickResults ld ctx with
  | [] => detectDeepStage ld ctx
  | [r] =>
    if r.Confidence == "high" then Except.ok r
    else detectDeepStage ld ctx
  | r1 :: r2 :: rest =>
    if allSameLanguage (r1 :: r2 :: rest) then
      Except.ok ((r2 :: rest).foldl selectBestStep r1)
    else
      Except.error ((r1 :: r2 :: rest).map DetectionResult.Language)

/-- detector/polylang_detector.go: `ContainerInfo`, the unit that flows upstream.
`EnvVars` (a Go `map[string]string`) is a lookup function; `DetectedAt` is an
abstract clock tick. -/
structure ContainerInfo where
  PodName : String
  Namespace : String
  ContainerName : String
  Image : String
  Kind : String
  EnvVars : String → Option String
  ProcessCommands : List String
  DetectedAt : Nat
  Language : String
  Framework : String
  Enabled : Bool
  Confidence : String
  DeploymentName : String
  Evidence : List String

/-- The all-zero `ContainerInfo` (Go zero value), used as the base for record
construction where the source leaves fields at their zero values. -/
def emptyContainerInfo : ContainerInfo :=
  { PodName := "", Namespace := "", ContainerName := "", Image := "", Kind := ""
    EnvVars := fun _ => none, ProcessCommands := [], DetectedAt := 0, Language := ""
    Framework := "", Enabled := false, Confidence := "", DeploymentName := ""
    Evidence := [] }

/-- part_009 (language_cache.go, workload-index version): `CacheEntry` wraps a
`ContainerInfo`; this version has no expiration field. -/
structure CacheEntry where
  Info : ContainerInfo

/-- part_009: `WorkloadCacheEntry`.  The `Containers` map is an association list
keyed by container name. -/
structure WorkloadCacheEntry where
  Namespace : String
  WorkloadName : String
  WorkloadKind : String
  Containers : List (String × ContainerInfo)

/-- part_009: `LanguageCache` with its two indices.  The image index is a partial
map from the (hashed) generated key; the workload index is an association list
keyed by `namespace/workloadName`. -/
structure LanguageCache where
  cache : String → Option CacheEntry
  workloadCache : List (String × WorkloadCacheEntry)

/-- part_009 `NewLanguageCache` (TTL parameter kept for compatibility, unused). -/
def NewLanguageCache : LanguageCache :=
  { cache := fun _ => none, workloadCache := [] }

/-- part_009 `generateKey`: the ordered whitelist of critical version env vars. -/
def criticalEnvVars : List String :=
  ["JAVA_VERSION", "NODE_VERSION", "PYTHON_VERSION", "GO_VERSION",
   "RUBY_VERSION", "PHP_VERSION", "DOTNET_VERSION"]

/-- part_009 `generateKey`: the byte stream fed to the SHA-256 hasher — the image
reference followed, in whitelist order, by one `KEY=VAL` chunk per critical env
var present in the map. -/
def keyMaterial (image : String) (envVars : String → Option String) : String :=
  criticalEnvVars.foldl
    (fun acc key =>
      match envVars key with
      | some val => acc ++ key ++ "=" ++ val
      | none => acc)
    image

/-- part_009 `generateKey`.  The SHA-256 hex digest is abstracted as the oracle
`sha : String → String` applied to the hashed byte stream. -/
def generateKey (sha : String → String) (image : String) (envVars : String → Option String) :
    String :=
  sha (keyMaterial image envVars)

/-- part_009 `Get` (workload-index version: no expiration check). -/
def cacheGet (sha : String → String) (lc : LanguageCache) (image : String)
    (envVars : String → Option String) : Option ContainerInfo :=
  match lc.cache (generateKey sha image envVars) with
  | some entry => some entry.Info
  | none => none

/-- part_009 `Set` (persists until manually removed). -/
def cacheSet (sha : String → String) (lc : LanguageCache) (image : String)
    (envVars : String → Option String) (info : ContainerInfo) : LanguageCache :=
  { lc with
    cache := fun k =>
      if k == generateKey sha image envVars then some { Info := info } else lc.cache k }

/-- part_009: the `namespace/workloadName` map key. -/
def workloadKey (ns workloadName : String) : String :=
  ns ++ "/" ++ workloadName

/-- part_009 `SetWorkload`. -/
def SetWorkload (lc : LanguageCache) (ns workloadName workloadKind : String)
    (containers : List (String × ContainerInfo)) : LanguageCache :=
  { lc with
    workloadCache :=
      (workloadKey ns workloadName,
        { Namespace := ns, WorkloadName := workloadName,
          WorkloadKind := workloadKind, Containers := containers }) ::
        lc.workloadCache.filter (fun p => p.1 != workloadKey ns workloadName) }

/-- part_009 `UpdateWorkloadContainer` (upsert one container of a workload). -/
def UpdateWorkloadContainer (lc : LanguageCache) (ns workloadName workloadKind : String)
    (info : ContainerInfo) : LanguageCache :=
  let key := workloadKey ns workloadName
  let entry : WorkloadCacheEntry :=
    match lc.workloadCache.lookup key with
    | some e => e
    | none =>
      { Namespace := ns, WorkloadName := workloadName,
        WorkloadKind := workloadKind, Containers := [] }
  let entry2 : WorkloadCacheEntry :=
    { entry with
      Containers :=
        (info.ContainerName, info) ::
          entry.Containers.filter (fun p => p.1 != info.ContainerName) }
  { lc with
    workloadCache := (key, entry2) :: lc.workloadCache.filter (fun p => p.1 != key) }

/-- part_009 `GetWorkload`. -/
def GetWorkload (lc : LanguageCache) (ns workloadName : String) :
    Option WorkloadCacheEntry :=
  lc.workloadCache.lookup (workloadKey ns workloadName)

/-- part_009 `RemoveWorkload` (`delete(lc.workloadCache, key)`). -/
def RemoveWorkload (lc : LanguageCache) (ns workloadName : String) : LanguageCache :=
  { lc with
    workloadCache :=
      lc.workloadCache.filter (fun p => p.1 != workloadKey ns workloadName) }

/-- part_009 `GetAllActiveWorkloads`. -/
def GetAllActiveWorkloads (lc : LanguageCache) : List WorkloadCacheEntry :=
  lc.workloadCache.map Prod.snd

/-- part_009 `GetAllActiveContainers` (flatten all workloads). -/
def GetAllActiveContainers (lc : LanguageCache) : List ContainerInfo :=
  lc.workloadCache.foldr (fun p acc => p.2.Containers.map Prod.snd ++ acc) []

/-- detector/polylang_detector.go `ShouldMonitorNamespace`: namespace policy state
(the two env-var-derived lists of `PolylangDetector`). -/
structure NamespacePolicy where
  IgnoredNamespaces : List String
  MonitoredNamespaces : List String

/-- detector/polylang_detector.go `ShouldMonitorNamespace`.  The membership loops of
the source are `List.contains`. -/
def ShouldMonitorNamespace (pd : NamespacePolicy) (ns : String) : Bool :=
  if pd.MonitoredNamespaces.length > 0 then
    pd.MonitoredNamespaces.contains ns
  else if pd.IgnoredNamespaces.length > 0 then
    if pd.IgnoredNamespaces.contains ns then false else true
  else true

/-- detector/ebpf_detector.go: the mutable state touched by informer handlers and
the reconciler — the shared cache plus the processed-pods key set. -/
structure EBPFState where
  cache : LanguageCache
  processedPods : List String

/-- Namespace/name metadata of a deleted Kubernetes object, as consumed by the
informer delete handlers. -/
structure ObjectMeta where
  Namespace : String
  Name : String

/-- The resource kinds an informer can watch in detector/ebpf_detector.go. -/
inductive WatchedResource where
  | Pods
  | Deployments
  | DaemonSets
  | ReplicaSets
  | StatefulSets
  deriving DecidableEq, Repr

/-- One `AddEventHandler` registration: the watched resource and the effect of its
`DeleteFunc` on the detector state. -/
structure InformerRegistration where
  resource : WatchedResource
  onDelete : ObjectMeta → EBPFState → EBPFState

/-- detector/ebpf_detector.go, pod informer `DeleteFunc`: drop the deleted pod's
`namespace/name` key from `processedPods`. -/
def onPodDelete (obj : ObjectMeta) (st : EBPFState) : EBPFState :=
  { st with
    processedPods :=
      st.processedPods.filter (fun k => k != workloadKey obj.Namespace obj.Name) }

/-- detector/ebpf_detector.go, workload informer `DeleteFunc` (shared shape of the
Deployment, DaemonSet and ReplicaSet handlers): `Cache.RemoveWorkload` on the
deleted object's namespace and name. -/
def onWorkloadDelete (obj : ObjectMeta) (st : EBPFState) : EBPFState :=
  { st with cache := RemoveWorkload st.cache obj.Namespace obj.Name }

/-- detector/ebpf_detector.go `setupInformers`: the four registrations it performs,
in source order.  The pod handler deletes the `namespace/name` key from
`processedPods`; each workload handler calls `Cache.RemoveWorkload`. -/
def setupInformers : List InformerRegistration :=
  [ { resource := WatchedResource.Pods, onDelete := onPodDelete },
    { resource := WatchedResource.Deployments, onDelete := onWorkloadDelete },
    { resource := WatchedResource.DaemonSets, onDelete := onWorkloadDelete },
    { resource := WatchedResource.ReplicaSets, onDelete := onWorkloadDelete } ]

/-- The Kubernetes API as seen by `reconcileCache`: each lookup either succeeds
(`ok`) or returns an error message. -/
structure K8sApi where
  getDeployment : String → String → Except String Unit
  getDaemonSet : String → String → Except String Unit
  getReplicaSet : String → String → Except String Unit
  getStatefulSet : String → String → Except String Unit
  getPod : String → String → Except String Unit

/-- detector/ebpf_detector.go `reconcileCache`, existence check for one cached
workload: `exists = err == nil` in each kind case; kinds outside the switch leave
`exists` at its zero value `false`. -/
def workloadExistsCheck (api : K8sApi) (w : WorkloadCacheEntry) : Bool :=
  match w.WorkloadKind with
  | "Deployment" => (api.getDeployment w.Namespace w.WorkloadName).toBool
  | "DaemonSet" => (api.getDaemonSet w.Namespace w.WorkloadName).toBool
  | "ReplicaSet" => (api.getReplicaSet w.Namespace w.WorkloadName).toBool
  | "StatefulSet" => (api.getStatefulSet w.Namespace w.WorkloadName).toBool
  | _ => false

/-- detector/ebpf_detector.go `reconcileCache`, first half: iterate the snapshot of
cached workloads and remove every one whose existence check failed. -/
def reconcileWorkloads (api : K8sApi) (lc : LanguageCache) : LanguageCache :=
  (GetAllActiveWorkloads lc).foldl
    (fun acc w =>
      if workloadExistsCheck api w then acc
      else RemoveWorkload acc w.Namespace w.WorkloadName)
    lc

/-- detector/ebpf_detector.go `reconcileCache`, second half: drop processed-pod keys
whose pod lookup errors (keys that do not split into exactly two parts are kept). -/
def reconcileProcessedPods (api : K8sApi) (pods : List String) : List String :=
  pods.filter
    (fun key =>
      match key.splitOn "/" with
      | [ns, podName] => (api.getPod ns podName).toBool
      | _ => true)

/-- detector/ebpf_detector.go `reconcileCache`: both halves combined. -/
def reconcileCache (api : K8sApi) (st : EBPFState) : EBPFState :=
  { cache := reconcileWorkloads api st.cache,
    processedPods := reconcileProcessedPods api st.processedPods }

/-- Pod-spec data consumed by `DetectLanguageForPod`: one env entry of a container
spec (`env.value` only; `valueFrom` entries surface as empty values). -/
structure EnvVarSpec where
  name : String
  value : String

/-- One entry of `pod.Spec.Containers`. -/
structure ContainerSpec where
  Name : String
  Image : String
  Env : List EnvVarSpec

/-- One entry of `pod.Status.ContainerStatuses`. -/
structure ContainerStatus where
  Name : String
  ContainerID : String

/-- The slice of a `corev1.Pod` read by `DetectLanguageForPod`: name, namespace,
running flag, declared containers, container statuses, and the controller owner
kind (`metav1.GetControllerOf`; `none` for standalone pods). -/
structure PodData where
  Name : String
  Namespace : String
  PhaseRunning : Bool
  Containers : List ContainerSpec
  ContainerStatuses : List ContainerStatus
  OwnerKind : Option String

/-- detector/proc_detector.go: build the env-var map of a container spec
(skip entries whose value is empty). -/
def buildEnvVars (env : List EnvVarSpec) : String → Option String :=
  env.foldl
    (fun m e =>
      if e.value != "" then fun k => if k == e.name then some e.value else m k
      else m)
    (fun _ => none)

/-- detector/proc_detector.go `detectContainerLanguage`, containerID loop: find the
first status matching the container name with a non-empty `ContainerID`; split on
the runtime prefix `://`; take the second part when the split yields exactly two
parts (and stop), otherwise keep scanning with `containerID` still empty. -/
def findContainerID (statuses : List ContainerStatus) (containerName : String) : String :=
  match statuses with
  | [] => ""
  | s :: rest =>
    if s.Name == containerName && s.ContainerID != "" then
      match s.ContainerID.splitOn "://" with
      | [_, id] => id
      | _ => findContainerID rest containerName
    else findContainerID rest containerName

/-- The node-side effects `detectContainerLanguage` depends on: the container-PID
locator and the `/proc` context reader. -/
structure ProcOracle where
  GetContainerPIDs : String → Except String (List Nat)
  GetProcessContext : Nat → Except String ProcessContext

/-- detector/proc_detector.go `detectContainerLanguage`, detection loop: for each
PID build a process context (skip on error) and run the orchestrator (skip on
conflict or error); keep non-Unknown results. -/
def collectDetections (proc : ProcOracle) (det : LanguageDetector) (pids : List Nat) :
    List DetectionResult :=
  pids.filterMap
    (fun pid =>
      match proc.GetProcessContext pid with
      | Except.error _ => none
      | Except.ok pctx =>
        match detect det pctx with
        | Except.error _ => none
        | Except.ok r => if r.Language != "Unknown" then some r else none)

/-- detector/proc_detector.go `detectContainerLanguage`, result selection: the first
high-confidence detection, else the first detection. -/
def firstHighOrFirst (d : DetectionResult) (ds : List DetectionResult) : DetectionResult :=
  match (d :: ds).find? (fun r => r.Confidence == "high") with
  | some r => r
  | none => d

/-- detector/proc_detector.go `detectContainerLanguage` (zap version): returns an
error when the containerID is empty, when the PID locator fails or finds no PID;
otherwise classifies the container's processes, falling back to Unknown/low when
no process yields a language. -/
def detectContainerLanguage (proc : ProcOracle) (det : LanguageDetector) (now : Nat)
    (pod : PodData) (container : ContainerSpec) : Except String ContainerInfo :=
  let info : ContainerInfo :=
    { emptyContainerInfo with
      PodName := pod.Name, Namespace := pod.Namespace, ContainerName := container.Name,
      Image := container.Image, EnvVars := buildEnvVars container.Env, DetectedAt := now }
  let containerID := findContainerID pod.ContainerStatuses container.Name
  if containerID == "" then
    Except.error ("container ID not found for " ++ container.Name)
  else
    match proc.GetContainerPIDs containerID with
    | Except.error e => Except.error ("failed to get container PIDs: " ++ e)
    | Except.ok pids =>
      if pids.length == 0 then
        Except.error ("no processes found for container " ++ container.Name)
      else
        match collectDetections proc det pids with
        | [] => Except.ok { info with Language := "Unknown", Confidence := "low" }
        | d :: ds =>
          let bestResult := firstHighOrFirst d ds
          Except.ok
            { info with
              Language := bestResult.Language, Framework := bestResult.Framework,
              Confidence := bestResult.Confidence,
              Evidence :=
                ["Detected via /proc inspection with " ++ bestResult.Confidence ++
                  " confidence"] }

/-- detector/polylang_detector.go `getPodDeploymentName`, abstracted: the name
component that the coordinator reads while discarding the error
(`depName, _ := getPodDeploymentName(...)`). -/
structure DeploymentNameOracle where
  getPodDeploymentName : String → String → String

/-- detector/proc_detector.go `DetectLanguageForPod`, one iteration of the container
loop, threading the image cache and the accumulated results.

Cache hit: part_009 `Get` returns a pointer into the stored entry (`&entry.Info`),
so the stampings `cachedInfo.PodName = ...` etc. write through that pointer into
the cache; the embedding makes this explicit by storing the stamped record back
under the same generated key.  Cache miss: run `detectContainerLanguage`; on error
log and continue (no result for this container); on success stamp
DeploymentName/Kind, `Set` the cache and append the result. -/
def detectForContainer (sha : String → String) (proc : ProcOracle) (det : LanguageDetector)
    (k8s : DeploymentNameOracle) (now : Nat) (pod : PodData) (ownerKind : String)
    (acc : LanguageCache × List ContainerInfo) (container : ContainerSpec) :
    LanguageCache × List ContainerInfo :=
  let containerEnvVars := buildEnvVars container.Env
  match cacheGet sha acc.1 container.Image containerEnvVars with
  | some cachedInfo =>
    let stamped : ContainerInfo :=
      { cachedInfo with
        PodName := pod.Name, Namespace := pod.Namespace, ContainerName := container.Name,
        DetectedAt := now,
        DeploymentName := k8s.getPodDeploymentName pod.Namespace pod.Name }
    (cacheSet sha acc.1 container.Image containerEnvVars stamped, acc.2 ++ [stamped])
  | none =>
    match detectContainerLanguage proc det now pod container with
    | Except.error _ => acc
    | Except.ok containerInfo =>
      let containerInfo2 : ContainerInfo :=
        { containerInfo with
          DeploymentName := k8s.getPodDeploymentName pod.Namespace pod.Name,
          Kind := ownerKind }
      (cacheSet sha acc.1 container.Image containerEnvVars containerInfo2,
        acc.2 ++ [containerInfo2])

/-- detector/proc_detector.go `DetectLanguageForPod` (zap version): reject non-running
pods, resolve the owner kind, then run the container loop.  Returns the updated
image cache together with the produced `ContainerInfo` list. -/
def DetectLanguageForPod (sha : String → String) (proc : ProcOracle) (det : LanguageDetector)
    (k8s : DeploymentNameOracle) (now : Nat) (cache : LanguageCache) (pod : PodData) :
    Except String (LanguageCache × List ContainerInfo) :=
  if !pod.PhaseRunning then
    Except.error "pod is not running"
  else
    let ownerKind :=
      match pod.OwnerKind with
      | none => "Pod"
      | some kind => kind
    Except.ok
      (pod.Containers.foldl
        (detectForContainer sha proc det k8s now pod ownerKind)
        (cache, []))

/-- Observable events of one `SendBatch` invocation (detector/polylang_detector.go):
remote `RPCHandler.PushDetectionResults` calls (numbered per attempt), the domain
log of a failed batch, plain error logs, and the success log. -/
inductive RpcEvent where
  | rpcCall (attempt : Nat)
  | batchFailedLog (count : Nat)
  | errorLog (msg : String)
  | batchSentLog (count : Nat) (reply : String)
  deriving DecidableEq, Repr

/-- Outcomes of the networking the `SendBatch` body performs: `dial n` is the n-th
`DialWithRetry` in this invocation (it only fails on context cancellation);
`call n` is the n-th remote call, yielding a reply on success. -/
structure RpcOracle where
  dial : Nat → Except String Unit
  call : Nat → Except String String

/-- detector/polylang_detector.go `SendBatch`, call/retry section (entered with a
live handle): one remote call; on error, mark the handle nil, reconnect
(`DialWithRetry`, abort on its failure), retry the call exactly once, and on a
second error drop the batch with the error logs. -/
def sendBatchCall (net : RpcOracle) (batch : List ContainerInfo) :
    Option Unit × List RpcEvent :=
  match net.call 0 with
  | Except.ok reply =>
    (some (), [RpcEvent.rpcCall 0, RpcEvent.batchSentLog batch.length reply])
  | Except.error _ =>
    match net.dial 1 with
    | Except.error _ =>
      (none, [RpcEvent.rpcCall 0, RpcEvent.batchFailedLog batch.length,
        RpcEvent.errorLog "Failed to re-establish RPC connection"])
    | Except.ok _ =>
      match net.call 1 with
      | Except.ok reply =>
        (some (), [RpcEvent.rpcCall 0, RpcEvent.batchFailedLog batch.length,
          RpcEvent.rpcCall 1, RpcEvent.batchSentLog batch.length reply])
      | Except.error _ =>
        (some (), [RpcEvent.rpcCall 0, RpcEvent.batchFailedLog batch.length,
          RpcEvent.rpcCall 1, RpcEvent.batchFailedLog batch.length,
          RpcEvent.errorLog "Failed to send batch after reconnection"])

/-- detector/polylang_detector.go `SendBatch`: empty batches return immediately;
a nil RPC handle triggers `DialWithRetry` first (abort with an error log on its
failure); then the call/retry section runs.  Returns the final RPC handle and
the event list. -/
def sendBatch (net : RpcOracle) (rpcClient : Option Unit) (batch : List ContainerInfo) :
    Option Unit × List RpcEvent :=
  if batch.length == 0 then (rpcClient, [])
  else
    match rpcClient with
    | some _ => sendBatchCall net batch
    | none =>
      match net.dial 0 with
      | Except.ok _ => sendBatchCall net batch
      | Except.error _ =>
        (none, [RpcEvent.errorLog "Failed to establish RPC connection"])

/-- Count of remote calls in a `SendBatch` event list. -/
def countRpcCalls (evts : List RpcEvent) : Nat :=
  (evts.filter (fun e => match e with | RpcEvent.rpcCall _ => true | _ => false)).length

/-- Whether a `SendBatch` event list records a successful send. -/
def hasBatchSent (evts : List RpcEvent) : Bool :=
  evts.any (fun e => match e with | RpcEvent.batchSentLog _ _ => true | _ => false)

/-- Primitive steps of the upstream client loop in rpc/client.go
(`SendDataToUpdater`), as far as the `BatchMutex` discipline is concerned:
acquire/release of `BatchMutex`, a `SendBatch` flush with its reason and payload,
the queued-only log, and closing the RPC handle. -/
inductive ClientAction where
  | lockBatchMutex
  | unlockBatchMutex
  | flush (reason : String) (batch : List ContainerInfo)
  | logQueued
  | closeRpc

/-- The four events the `select` of `SendDataToUpdater` (rpc/client.go) reacts to.
`cacheSyncTick` carries the `GetAllActiveContainers` snapshot it reads. -/
inductive ClientEvent where
  | queueItem (result : ContainerInfo)
  | periodicTick
  | cacheSyncTick (allContainers : List ContainerInfo)
  | contextCancelled

/-- rpc/client.go `sendAllCachedWorkloads`: chunk the cached containers into
sub-batches of `batchSize` 10 and flush each with reason `cached_workloads_sync`
(no `BatchMutex` use on this path). -/
def sendAllCachedWorkloadsActions : List ContainerInfo → List ClientAction
  | [] => []
  | c :: rest =>
    ClientAction.flush "cached_workloads_sync" ((c :: rest).take 10) ::
      sendAllCachedWorkloadsActions ((c :: rest).drop 10)
termination_by l => l.length
decreasing_by
  simp only [List.length_drop, List.length_cons]
  omega

/-- rpc/client.go `SendDataToUpdater`, one `select` arm: the action trace the arm
executes and the batch slice it leaves behind.  Mirrors the source placement of
`BatchMutex.Lock`/`Unlock` around each flush:

* queue item: append under lock, unlock, then flush outside the lock when the
  threshold is reached (else only the queued log);
* periodic tick: flush (if non-empty) between `Lock` and `Unlock`;
* shutdown: flush (if non-empty) between `Lock` and `Unlock`, then close the handle;
* cache-sync tick: `sendAllCachedWorkloads`, no lock at all. -/
def handleClientEvent (queueSize : Nat) (rpcClient : Option Unit)
    (batch : List ContainerInfo) : ClientEvent → List ClientAction × List ContainerInfo
  | ClientEvent.queueItem result =>
    let newBatch := batch ++ [result]
    if newBatch.length ≥ queueSize then
      ([ClientAction.lockBatchMutex, ClientAction.unlockBatchMutex,
        ClientAction.flush "queue_size_threshold_reached" newBatch], [])
    else
      ([ClientAction.lockBatchMutex, ClientAction.unlockBatchMutex,
        ClientAction.logQueued], newBatch)
  | ClientEvent.periodicTick =>
    if batch.length > 0 then
      ([ClientAction.lockBatchMutex, ClientAction.flush "periodic_flush_interval" batch,
        ClientAction.unlockBatchMutex], [])
    else ([ClientAction.lockBatchMutex, ClientAction.unlockBatchMutex], batch)
  | ClientEvent.cacheSyncTick allContainers =>
    (sendAllCachedWorkloadsActions allContainers, batch)
  | ClientEvent.contextCancelled =>
    (ClientAction.lockBatchMutex ::
      ((if batch.length > 0 then [ClientAction.flush "application_shutdown" batch] else []) ++
        [ClientAction.unlockBatchMutex] ++
        (if rpcClient.isSome then [ClientAction.closeRpc] else [])),
      batch)

/-- For an action trace, the flushes it contains, each paired with the lock depth
at which it executes (number of locks minus unlocks seen before it). -/
def flushDepthsAux (depth : Nat) : List ClientAction → List (String × Nat)
  | [] => []
  | ClientAction.lockBatchMutex :: rest => flushDepthsAux (depth + 1) rest
  | ClientAction.unlockBatchMutex :: rest => flushDepthsAux (depth - 1) rest
  | ClientAction.flush reason _ :: rest => (reason, depth) :: flushDepthsAux depth rest
  | _ :: rest => flushDepthsAux depth rest

/-- Flushes of a trace with their lock depths, starting outside the mutex. -/
def flushDepths (trace : List ClientAction) : List (String × Nat) :=
  flushDepthsAux 0 trace

/-- A result list names at least two distinct languages. -/
def hasTwoLanguages (rs : List DetectionResult) : Prop :=
  ∃ a ∈ rs, ∃ b ∈ rs, a.Language ≠ b.Language

/-- Predicate: `Detect` reaches stage 2 exactly when stage 1 produced no result, or a single
result whose confidence is not high. -/
def decidesOnDeep (ld : LanguageDetector) (ctx : ProcessContext) : Prop :=
  quickResults ld ctx = [] ∨
    ∃ r, quickResults ld ctx = [r] ∧ r.Confidence ≠ "high"

/-- Each comparison step of `selectBestResult` keeps the running best or replaces
it with the incoming result. -/
lemma selectBestStep_eq_or (best result : DetectionResult) :
    selectBestStep best result = best ∨ selectBestStep best result = result := by
  unfold selectBestStep
  split
  · exact Or.inr rfl
  · split
    · exact Or.inr rfl
    · split
      · exact Or.inr rfl
      · exact Or.inl rfl

/-- The result of the `selectBestResult` fold is one of the compared results. -/
lemma foldl_selectBestStep_mem (rest : List DetectionResult) (r : DetectionResult) :
    rest.foldl selectBestStep r ∈ r :: rest := by
  induction rest generalizing r with
  | nil => simp
  | cons x xs ih =>
    have h := ih (selectBestStep r x)
    rcases selectBestStep_eq_or r x with h2 | h2 <;>
      · rw [h2] at h
        simp only [List.foldl_cons]
        rw [h2]
        rcases List.mem_cons.mp h with h3 | h3 <;> simp [h3]

/-- One comparison step yields a high-confidence best whenever either side is
high-confidence. -/
lemma selectBestStep_high (best result : DetectionResult)
    (h : best.Confidence = "high" ∨ result.Confidence = "high") :
    (selectBestStep best result).Confidence = "high" := by
  unfold selectBestStep
  rcases h with h | h
  · split
    · next hc =>
      simp only [Bool.and_eq_true, beq_iff_eq, bne_iff_ne] at hc
      exact hc.1
    · split
      · next hc =>
        simp only [Bool.and_eq_true, beq_iff_eq] at hc
        rw [hc.1.1, h]
      · split
        · next hc =>
          simp only [Bool.and_eq_true, beq_iff_eq] at hc
          rw [hc.1.1, h]
        · exact h
  · split
    · next hc =>
      simp only [Bool.and_eq_true, beq_iff_eq, bne_iff_ne] at hc
      exact hc.1
    · next hc =>
      simp only [Bool.and_eq_true, beq_iff_eq, bne_iff_ne, not_and, Classical.not_not] at hc
      split
      · next hc2 =>
        simp only [Bool.and_eq_true, beq_iff_eq] at hc2
        exact h
      · split
        · next hc2 =>
          simp only [Bool.and_eq_true, beq_iff_eq] at hc2
          exact h
        · exact hc h

/-- The `selectBestResult` fold returns a high-confidence result whenever any
compared result is high-confidence. -/
lemma foldl_selectBestStep_high (rest : List DetectionResult) (r : DetectionResult)
    (h : r.Confidence = "high" ∨ ∃ s ∈ rest, s.Confidence = "high") :
    (rest.foldl selectBestStep r).Confidence = "high" := by
  induction rest generalizing r with
  | nil =>
    rcases h with h | ⟨s, hs, _⟩
    · simpa using h
    · simp at hs
  | cons x xs ih =>
    simp only [List.foldl_cons]
    rcases h with h | ⟨s, hs, hsh⟩
    · exact ih _ (Or.inl (selectBestStep_high r x (Or.inl h)))
    · rcases List.mem_cons.mp hs with h2 | h2
      · exact ih _ (Or.inl (selectBestStep_high r x (Or.inr (h2 ▸ hsh))))
      · exact ih _ (Or.inr ⟨s, h2, hsh⟩)

/-- The check `allSameLanguage` holds exactly when every result names the head's language. -/
lemma allSameLanguage_iff (r : DetectionResult) (rest : List DetectionResult) :
    allSameLanguage (r :: rest) = true ↔ ∀ s ∈ rest, s.Language = r.Language := by
  simp [allSameLanguage, List.all_eq_true]

/-- On a list of two or more results, failing `allSameLanguage` is the same as
naming at least two distinct languages. -/
lemma allSameLanguage_false_iff (r : DetectionResult) (rest : List DetectionResult) :
    allSameLanguage (r :: rest) = false ↔ hasTwoLanguages (r :: rest) := by
  constructor
  · intro h
    have h2 : ¬(∀ s ∈ rest, s.Language = r.Language) := by
      intro hall
      rw [(allSameLanguage_iff r rest).mpr hall] at h
      simp at h
    push_neg at h2
    rcases h2 with ⟨s, hs, hne⟩
    exact ⟨r, List.mem_cons_self r rest, s, List.mem_cons_of_mem r hs, fun he => hne he.symm⟩
  · intro ⟨a, ha, b, hb, hab⟩
    rcases Bool.eq_false_or_eq_true (allSameLanguage (r :: rest)) with h | h
    · exfalso
      have hall := (allSameLanguage_iff r rest).mp h
      have haL : a.Language = r.Language := by
        rcases List.mem_cons.mp ha with h2 | h2
        · rw [h2]
        · exact hall a h2
      have hbL : b.Language = r.Language := by
        rcases List.mem_cons.mp hb with h2 | h2
        · rw [h2]
        · exact hall b h2
      exact hab (haL.trans hbL.symm)
    · exact h

/-- Reduction of stage 2 when the deep scans produced nothing. -/
lemma detectDeepStage_eq_nil (ld : LanguageDetector) (ctx : ProcessContext)
    (hd : deepResults ld ctx = []) :
    detectDeepStage ld ctx =
      Except.ok { Language := "Unknown", Framework := "", Version := "", Confidence := "low" } := by
  unfold detectDeepStage
  rw [hd]

/-- Reduction of stage 2 on a single deep result. -/
lemma detectDeepStage_eq_single (ld : LanguageDetector) (ctx : ProcessContext)
    (r : DetectionResult) (hd : deepResults ld ctx = [r]) :
    detectDeepStage ld ctx = Except.ok r := by
  unfold detectDeepStage
  rw [hd]

/-- Reduction of stage 2 on two or more deep results. -/
lemma detectDeepStage_eq_multi (ld : LanguageDetector) (ctx : ProcessContext)
    (r1 r2 : DetectionResult) (rest : List DetectionResult)
    (hd : deepResults ld ctx = r1 :: r2 :: rest) :
    detectDeepStage ld ctx =
      if allSameLanguage (r1 :: r2 :: rest) then
        Except.ok ((r2 :: rest).foldl selectBestStep r1)
      else
        Except.error ((r1 :: r2 :: rest).map DetectionResult.Language) := by
  unfold detectDeepStage
  rw [hd]

/-- Stage 2 errors exactly when the deep results name two or more distinct
languages (which requires at least two results). -/
lemma detectDeepStage_error_iff (ld : LanguageDetector) (ctx : ProcessContext) :
    (∃ L, detectDeepStage ld ctx = Except.error L) ↔
      2 ≤ (deepResults ld ctx).length ∧ hasTwoLanguages (deepResults ld ctx) := by
  cases hd : deepResults ld ctx with
  | nil => rw [detectDeepStage_eq_nil ld ctx hd]; simp
  | cons r1 rest =>
    cases rest with
    | nil => rw [detectDeepStage_eq_single ld ctx r1 hd]; simp
    | cons r2 rest2 =>
      rw [detectDeepStage_eq_multi ld ctx r1 r2 rest2 hd]
      rcases Bool.eq_false_or_eq_true (allSameLanguage (r1 :: r2 :: rest2)) with hall | hall
      · rw [hall]
        simp only [if_true]
        constructor
        · intro ⟨L, hL⟩
          exact absurd hL (by simp)
        · intro ⟨_, h2⟩
          rw [(allSameLanguage_false_iff r1 (r2 :: rest2)).mpr h2] at hall
          exact absurd hall (by simp)
      · rw [hall]
        simp only [Bool.false_eq_true, if_false]
        refine iff_of_true ⟨_, rfl⟩
          ⟨by simp, (allSameLanguage_false_iff r1 (r2 :: rest2)).mp hall⟩

/-- A stage-2 conflict error carries the languages of all deep results. -/
lemma detectDeepStage_error_payload (ld : LanguageDetector) (ctx : ProcessContext)
    (L : List String) (h : detectDeepStage ld ctx = Except.error L) :
    L = (deepResults ld ctx).map DetectionResult.Language := by
  cases hd : deepResults ld ctx with
  | nil => rw [detectDeepStage_eq_nil ld ctx hd] at h; exact absurd h (by simp)
  | cons r1 rest =>
    cases rest with
    | nil => rw [detectDeepStage_eq_single ld ctx r1 hd] at h; exact absurd h (by simp)
    | cons r2 rest2 =>
      rw [detectDeepStage_eq_multi ld ctx r1 r2 rest2 hd] at h
      rcases Bool.eq_false_or_eq_true (allSameLanguage (r1 :: r2 :: rest2)) with hall | hall
      · rw [hall] at h
        exact absurd h (by simp)
      · rw [hall] at h
        simp only [Bool.false_eq_true, if_false, Except.error.injEq] at h
        rw [← h]

/-- When all deep results agree on the language, stage 2 returns the
`selectBestResult` fold of them. -/
lemma detectDeepStage_same (ld : LanguageDetector) (ctx : ProcessContext)
    (r : DetectionResult) (rest : List DetectionResult)
    (hd : deepResults ld ctx = r :: rest) (hall : allSameLanguage (r :: rest) = true) :
    detectDeepStage ld ctx = Except.ok (rest.foldl selectBestStep r) := by
  cases rest with
  | nil => rw [detectDeepStage_eq_single ld ctx r hd]; simp
  | cons r2 rest2 =>
    rw [detectDeepStage_eq_multi ld ctx r r2 rest2 hd, hall]
    simp

/-- Reduction of `detect` when the quick scans produced nothing. -/
lemma detect_eq_of_quick_nil (ld : LanguageDetector) (ctx : ProcessContext)
    (hq : quickResults ld ctx = []) : detect ld ctx = detectDeepStage ld ctx := by
  unfold detect
  rw [hq]

/-- Reduction of `detect` on a single quick result. -/
lemma detect_eq_of_quick_single (ld : LanguageDetector) (ctx : ProcessContext)
    (r : DetectionResult) (hq : quickResults ld ctx = [r]) :
    detect ld ctx =
      if r.Confidence == "high" then Except.ok r else detectDeepStage ld ctx := by
  unfold detect
  rw [hq]

/-- Reduction of `detect` on two or more quick results. -/
lemma detect_eq_of_quick_multi (ld : LanguageDetector) (ctx : ProcessContext)
    (r1 r2 : DetectionResult) (rest : List DetectionResult)
    (hq : quickResults ld ctx = r1 :: r2 :: rest) :
    detect ld ctx =
      if allSameLanguage (r1 :: r2 :: rest) then
        Except.ok ((r2 :: rest).foldl selectBestStep r1)
      else
        Except.error ((r1 :: r2 :: rest).map DetectionResult.Language) := by
  unfold detect
  rw [hq]

/-- A process context with empty metadata, used as a concrete detection input. -/
def ctxTrivial : ProcessContext :=
  { PID := 1, PPID := 0, Executable := "", Cmdline := "", Environ := fun _ => none }

/-- A medium-confidence Java result carrying only a framework. -/
def resJavaFramework : DetectionResult :=
  { Language := "Java", Framework := "Spring Boot", Version := "", Confidence := "medium" }

/-- A medium-confidence Java result carrying only a version. -/
def resJavaVersion : DetectionResult :=
  { Language := "Java", Framework := "", Version := "11", Confidence := "medium" }

/-- An inspector whose quick scan reports `resJavaFramework`. -/
def inspectorJavaFramework : LanguageInspector :=
  { GetLanguage := "Java", QuickScan := fun _ => some resJavaFramework,
    DeepScan := fun _ => none }

/-- An inspector whose quick scan reports `resJavaVersion`. -/
def inspectorJavaVersion : LanguageInspector :=
  { GetLanguage := "Java", QuickScan := fun _ => some resJavaVersion,
    DeepScan := fun _ => none }

/-- A `LanguageDetector` whose quick stage yields two same-language results of equal
confidence: the first with a framework only, the second with a version only. -/
def tieBreakDetector : LanguageDetector :=
  { inspectors := [inspectorJavaFramework, inspectorJavaVersion] }

/-- C1 (amended): for every process context, `Detect` returns a language-conflict
error carrying the languages of the deciding stage's results iff that stage (the
QuickScan results when there are two or more; otherwise the DeepScan results,
which are consulted only when QuickScan yields no single high-confidence result)
names at least two distinct languages.  When the deciding stage has two or more
results all naming one language, `Detect` returns `selectBestResult` of them —
a member of that stage that is high-confidence whenever any member is; the
remaining comparison is the source's left-to-right fold, which at equal
confidence can keep a version-only result over a framework-only one. -/
theorem detect_conflict_iff_same_language_choice (ld : LanguageDetector)
    (ctx : ProcessContext) :
    ((∃ L, detect ld ctx = Except.error L) ↔
      (2 ≤ (quickResults ld ctx).length ∧ hasTwoLanguages (quickResults ld ctx)) ∨
        (decidesOnDeep ld ctx ∧ 2 ≤ (deepResults ld ctx).length ∧
          hasTwoLanguages (deepResults ld ctx))) ∧
    (∀ L, detect ld ctx = Except.error L →
      (2 ≤ (quickResults ld ctx).length ∧
        L = (quickResults ld ctx).map DetectionResult.Language) ∨
        (decidesOnDeep ld ctx ∧ L = (deepResults ld ctx).map DetectionResult.Language)) ∧
    (∀ r rest, quickResults ld ctx = r :: rest → rest ≠ [] →
      allSameLanguage (r :: rest) = true →
      detect ld ctx = Except.ok (rest.foldl selectBestStep r) ∧
        rest.foldl selectBestStep r ∈ r :: rest ∧
        ((∃ s ∈ r :: rest, s.Confidence = "high") →
          (rest.foldl selectBestStep r).Confidence = "high")) ∧
    (∀ r rest, decidesOnDeep ld ctx → deepResults ld ctx = r :: rest → rest ≠ [] →
      allSameLanguage (r :: rest) = true →
      detect ld ctx = Except.ok (rest.foldl selectBestStep r) ∧
        rest.foldl selectBestStep r ∈ r :: rest ∧
        ((∃ s ∈ r :: rest, s.Confidence = "high") →
          (rest.foldl selectBestStep r).Confidence = "high")) := by
  have hmemhigh : ∀ (r : DetectionResult) (rest : List DetectionResult),
      rest.foldl selectBestStep r ∈ r :: rest ∧
        ((∃ s ∈ r :: rest, s.Confidence = "high") →
          (rest.foldl selectBestStep r).Confidence = "high") := by
    intro r rest
    refine ⟨foldl_selectBestStep_mem rest r, ?_⟩
    intro ⟨s, hs, hsh⟩
    rcases List.mem_cons.mp hs with h2 | h2
    · exact foldl_selectBestStep_high rest r (Or.inl (h2 ▸ hsh))
    · exact foldl_selectBestStep_high rest r (Or.inr ⟨s, h2, hsh⟩)
  have hdeepdetect : decidesOnDeep ld ctx → detect ld ctx = detectDeepStage ld ctx := by
    intro hdd
    rcases hdd with hq | ⟨r, hq, hconf⟩
    · exact detect_eq_of_quick_nil ld ctx hq
    · rw [detect_eq_of_quick_single ld ctx r hq]
      have hb : (r.Confidence == "high") = false := by
        simp [hconf]
      rw [hb]
      simp
  refine ⟨?_, ?_, ?_, ?_⟩
  · -- the conflict iff
    cases hq : quickResults ld ctx with
    | nil =>
      rw [detect_eq_of_quick_nil ld ctx hq, detectDeepStage_error_iff]
      constructor
      · intro h
        exact Or.inr ⟨Or.inl hq, h⟩
      · intro h
        rcases h with ⟨hlen, _⟩ | ⟨_, h⟩
        · exact absurd hlen (by simp)
        · exact h
    | cons r rest =>
      cases rest with
      | nil =>
        by_cases hconf : r.Confidence = "high"
        · rw [detect_eq_of_quick_single ld ctx r hq]
          have hb : (r.Confidence == "high") = true := by simp [hconf]
          rw [hb]
          simp only [if_true]
          refine iff_of_false (by simp) ?_
          intro h
          rcases h with ⟨hlen, _⟩ | ⟨hdd, _⟩
          · exact absurd hlen (by simp)
          · rcases hdd with h2 | ⟨r2, h2, hc2⟩
            · rw [hq] at h2
              exact absurd h2 (by simp)
            · rw [hq] at h2
              have hrr : r = r2 := by
                injection h2 with h3 _
              exact hc2 (hrr ▸ hconf)
        · have hdd : decidesOnDeep ld ctx := Or.inr ⟨r, hq, hconf⟩
          rw [hdeepdetect hdd, detectDeepStage_error_iff]
          constructor
          · intro h
            exact Or.inr ⟨hdd, h⟩
          · intro h
            rcases h with ⟨hlen, _⟩ | ⟨_, h⟩
            · exact absurd hlen (by simp)
            · exact h
      | cons r2 rest2 =>
        rw [detect_eq_of_quick_multi ld ctx r r2 rest2 hq]
        rcases Bool.eq_false_or_eq_true (allSameLanguage (r :: r2 :: rest2)) with hall | hall
        · rw [hall]
          simp only [if_true]
          refine iff_of_false (by simp) ?_
          intro h
          rcases h with ⟨_, h2⟩ | ⟨hdd, _⟩
          · rw [(allSameLanguage_false_iff r (r2 :: rest2)).mpr h2] at hall
            exact absurd hall (by simp)
          · rcases hdd with h2 | ⟨r3, h2, _⟩
            · rw [hq] at h2
              exact absurd h2 (by simp)
            · rw [hq] at h2
              exact absurd h2 (by simp)
        · rw [hall]
          simp only [Bool.false_eq_true, if_false]
          refine iff_of_true ⟨_, rfl⟩ ?_
          exact Or.inl ⟨by simp,
            (allSameLanguage_false_iff r (r2 :: rest2)).mp hall⟩
  · -- the error payload
    intro L hL
    cases hq : quickResults ld ctx with
    | nil =>
      rw [detect_eq_of_quick_nil ld ctx hq] at hL
      exact Or.inr ⟨Or.inl hq, detectDeepStage_error_payload ld ctx L hL⟩
    | cons r rest =>
      cases rest with
      | nil =>
        by_cases hconf : r.Confidence = "high"
        · rw [detect_eq_of_quick_single ld ctx r hq] at hL
          have hb : (r.Confidence == "high") = true := by simp [hconf]
          rw [hb] at hL
          simp at hL
        · have hdd : decidesOnDeep ld ctx := Or.inr ⟨r, hq, hconf⟩
          rw [hdeepdetect hdd] at hL
          exact Or.inr ⟨hdd, detectDeepStage_error_payload ld ctx L hL⟩
      | cons r2 rest2 =>
        rw [detect_eq_of_quick_multi ld ctx r r2 rest2 hq] at hL
        rcases Bool.eq_false_or_eq_true (allSameLanguage (r :: r2 :: rest2)) with hall | hall
        · rw [hall] at hL
          simp at hL
        · rw [hall] at hL
          simp only [Bool.false_eq_true, if_false, Except.error.injEq] at hL
          exact Or.inl ⟨by simp, hL.symm⟩
  · -- same-language choice, quick stage
    intro r rest hq hne hall
    cases rest with
    | nil => exact absurd rfl hne
    | cons r2 rest2 =>
      refine ⟨?_, hmemhigh r (r2 :: rest2)⟩
      rw [detect_eq_of_quick_multi ld ctx r r2 rest2 hq, hall]
      simp
  · -- same-language choice, deep stage
    intro r rest hdd hd hne hall
    rw [hdeepdetect hdd]
    exact ⟨detectDeepStage_same ld ctx r rest hd hall, hmemhigh r rest⟩

/-- C1 counterexample: with two equal-confidence same-language quick results, the
first carrying only a non-empty `Framework` and the second only a non-empty
`Version`, `Detect` returns the second — not a result preferred for its
`Framework` as the claim's tie-break demands. -/
theorem detect_tiebreak_counterexample :
    detect tieBreakDetector ctxTrivial = Except.ok resJavaVersion ∧
    quickResults tieBreakDetector ctxTrivial = [resJavaFramework, resJavaVersion] ∧
    allSameLanguage [resJavaFramework, resJavaVersion] = true ∧
    resJavaFramework.Confidence = resJavaVersion.Confidence ∧
    resJavaFramework.Framework ≠ "" ∧
    resJavaVersion.Framework = "" := by
  refine ⟨rfl, rfl, rfl, rfl, by decide, rfl⟩

/-- C1 witness: the amended theorem applied to the concrete two-inspector detector
evaluates the same-language branch on an actual input. -/
theorem detect_conflict_iff_same_language_choice_witness :
    detect tieBreakDetector ctxTrivial =
      Except.ok ([resJavaVersion].foldl selectBestStep resJavaFramework) ∧
    [resJavaVersion].foldl selectBestStep resJavaFramework ∈
      resJavaFramework :: [resJavaVersion] := by
  have h :=
    (detect_conflict_iff_same_language_choice tieBreakDetector ctxTrivial).2.2.1
      resJavaFramework [resJavaVersion] (by decide) (by decide) (by decide)
  exact ⟨h.1, h.2.1⟩

/-- A medium-confidence Python quick result with no framework and no version. -/
def resPythonMedium : DetectionResult :=
  { Language := "Python", Framework := "", Version := "", Confidence := "medium" }

/-- An inspector whose quick scan reports `resPythonMedium` and whose deep scan
reports nothing. -/
def mediumOnlyInspector : LanguageInspector :=
  { GetLanguage := "Python", QuickScan := fun _ => some resPythonMedium,
    DeepScan := fun _ => none }

/-- A detector with a single inspector that only produces a medium quick result. -/
def mediumOnlyDetector : LanguageDetector :=
  { inspectors := [mediumOnlyInspector] }

/-- C10: when exactly one quick result exists and its confidence is not high, and
every deep scan is nil, `Detect` discards the quick finding and returns
Unknown with empty framework and version at low confidence, with no error. -/
theorem detect_single_nonhigh_quick_discarded (ld : LanguageDetector)
    (ctx : ProcessContext) (r : DetectionResult)
    (hq : quickResults ld ctx = [r]) (hconf : r.Confidence ≠ "high")
    (hd : deepResults ld ctx = []) :
    detect ld ctx =
      Except.ok
        { Language := "Unknown", Framework := "", Version := "", Confidence := "low" } := by
  rw [detect_eq_of_quick_single ld ctx r hq]
  have hb : (r.Confidence == "high") = false := by simp [hconf]
  rw [hb]
  simp only [Bool.false_eq_true, if_false]
  exact detectDeepStage_eq_nil ld ctx hd

/-- C10 witness: the single-medium-quick theorem evaluated on a concrete detector. -/
theorem detect_single_nonhigh_quick_discarded_witness :
    detect mediumOnlyDetector ctxTrivial =
      Except.ok
        { Language := "Unknown", Framework := "", Version := "", Confidence := "low" } :=
  detect_single_nonhigh_quick_discarded mediumOnlyDetector ctxTrivial resPythonMedium
    (by decide) (by decide) (by decide)

/-- C7: the namespace policy.  A non-empty monitored list decides membership alone
(for every ignored list); with an empty monitored list a non-empty ignored list
decides non-membership; with both empty every namespace is monitored. -/
theorem shouldMonitorNamespace_policy (pd : NamespacePolicy) (ns : String) :
    (pd.MonitoredNamespaces ≠ [] →
      (ShouldMonitorNamespace pd ns = true ↔ ns ∈ pd.MonitoredNamespaces)) ∧
    (pd.MonitoredNamespaces = [] → pd.IgnoredNamespaces ≠ [] →
      (ShouldMonitorNamespace pd ns = true ↔ ns ∉ pd.IgnoredNamespaces)) ∧
    (pd.MonitoredNamespaces = [] → pd.IgnoredNamespaces = [] →
      ShouldMonitorNamespace pd ns = true) := by
  refine ⟨?_, ?_, ?_⟩
  · intro hm
    have hlen : pd.MonitoredNamespaces.length > 0 := List.length_pos.mpr hm
    simp only [ShouldMonitorNamespace, if_pos hlen]
    exact List.elem_iff
  · intro hm hi
    have hlen : ¬pd.MonitoredNamespaces.length > 0 := by simp [hm]
    have hlen2 : pd.IgnoredNamespaces.length > 0 := List.length_pos.mpr hi
    simp only [ShouldMonitorNamespace, if_neg hlen, if_pos hlen2]
    by_cases hc : ns ∈ pd.IgnoredNamespaces
    · have hb : pd.IgnoredNamespaces.contains ns = true := List.elem_iff.mpr hc
      rw [hb]
      simp [hc]
    · have hb : pd.IgnoredNamespaces.contains ns = false := by
        rcases Bool.eq_false_or_eq_true (pd.IgnoredNamespaces.contains ns) with h | h
        · exact absurd (List.elem_iff.mp h) hc
        · exact h
      rw [hb]
      simp [hc]
  · intro hm hi
    simp [ShouldMonitorNamespace, hm, hi]

/-- The allow-over-deny scenario: `monitored = [prod]`, `ignored = [prod, kube-system]`. -/
def allowBeatsDenyPolicy : NamespacePolicy :=
  { IgnoredNamespaces := ["prod", "kube-system"], MonitoredNamespaces := ["prod"] }

/-- C7 witness: the policy theorem evaluated on the allow-over-deny scenario. -/
theorem shouldMonitorNamespace_policy_witness :
    ShouldMonitorNamespace allowBeatsDenyPolicy "prod" = true ∧
    ShouldMonitorNamespace allowBeatsDenyPolicy "kube-system" = false := by
  have h1 := (shouldMonitorNamespace_policy allowBeatsDenyPolicy "prod").1 (by decide)
  have h2 := (shouldMonitorNamespace_policy allowBeatsDenyPolicy "kube-system").1 (by decide)
  refine ⟨h1.mpr (by decide), ?_⟩
  have h3 : ¬ShouldMonitorNamespace allowBeatsDenyPolicy "kube-system" = true := by
    intro h
    have h4 := h2.mp h
    simp [allowBeatsDenyPolicy] at h4
  exact Bool.eq_false_iff.mpr h3

/-- The function `keyMaterial` only looks at the critical env vars: two env maps that agree on
all of them key to the same material. -/
lemma keyMaterial_congr (image : String) (E E2 : String → Option String)
    (h : ∀ k ∈ criticalEnvVars, E2 k = E k) : keyMaterial image E2 = keyMaterial image E := by
  unfold keyMaterial
  have hgen : ∀ (l : List String) (acc : String), (∀ k ∈ l, E2 k = E k) →
      l.foldl (fun acc key => match E2 key with
        | some val => acc ++ key ++ "=" ++ val
        | none => acc) acc =
      l.foldl (fun acc key => match E key with
        | some val => acc ++ key ++ "=" ++ val
        | none => acc) acc := by
    intro l
    induction l with
    | nil => intro acc _; rfl
    | cons k ks ih =>
      intro acc hl
      simp only [List.foldl_cons]
      rw [hl k (List.mem_cons_self k ks)]
      exact ih _ (fun k2 hk2 => hl k2 (List.mem_cons_of_mem k hk2))
  exact hgen criticalEnvVars image h

/-- A `Get` right after `Set` under the same generated key returns the stored value. -/
lemma cacheGet_cacheSet_same (sha : String → String) (lc : LanguageCache)
    (I I2 : String) (E E2 : String → Option String) (v : ContainerInfo)
    (hkey : generateKey sha I2 E2 = generateKey sha I E) :
    cacheGet sha (cacheSet sha lc I E v) I2 E2 = some v := by
  unfold cacheGet cacheSet
  simp only [hkey]
  simp

/-- A `Set` whose generated key differs leaves a `Get` unchanged. -/
lemma cacheGet_cacheSet_ne (sha : String → String) (lc : LanguageCache)
    (I I2 : String) (E E2 : String → Option String) (v : ContainerInfo)
    (hkey : generateKey sha I2 E2 ≠ generateKey sha I E) :
    cacheGet sha (cacheSet sha lc I2 E2 v) I E = cacheGet sha lc I E := by
  unfold cacheGet cacheSet
  have hb : (generateKey sha I E == generateKey sha I2 E2) = false := by
    rcases Bool.eq_false_or_eq_true (generateKey sha I E == generateKey sha I2 E2) with h | h
    · exact absurd (beq_iff_eq.mp h).symm hkey
    · exact h
  simp only [hb]
  simp

/-- A sequence of image-index `Set` operations, applied left to right. -/
def applySets (sha : String → String) (lc : LanguageCache)
    (ops : List (String × (String → Option String) × ContainerInfo)) : LanguageCache :=
  ops.foldl (fun acc op => cacheSet sha acc op.1 op.2.1 op.2.2) lc

/-- A sequence of `Set` operations under different generated keys leaves a `Get`
unchanged. -/
lemma cacheGet_applySets_ne (sha : String → String)
    (ops : List (String × (String → Option String) × ContainerInfo))
    (lc : LanguageCache) (I : String) (E : String → Option String)
    (hops : ∀ op ∈ ops, generateKey sha op.1 op.2.1 ≠ generateKey sha I E) :
    cacheGet sha (applySets sha lc ops) I E = cacheGet sha lc I E := by
  induction ops generalizing lc with
  | nil => rfl
  | cons op rest ih =>
    have h1 := ih (cacheSet sha lc op.1 op.2.1 op.2.2)
      (fun op2 h2 => hops op2 (List.mem_cons_of_mem op h2))
    calc cacheGet sha (applySets sha lc (op :: rest)) I E
        = cacheGet sha (cacheSet sha lc op.1 op.2.1 op.2.2) I E := h1
      _ = cacheGet sha lc I E :=
          cacheGet_cacheSet_ne sha lc I op.1 E op.2.1 op.2.2
            (hops op (List.mem_cons_self op rest))

/-- C8: image-index round trip.  After `Set(I,E,v)`, a `Get` keyed compatibly
(any env map agreeing with `E` on the seven critical version env vars) returns
`v`; the value survives any sequence of `Set` operations under different
generated keys (entries never expire); and a `Set` under the same generated key
overwrites it. -/
theorem cache_set_get_roundtrip (sha : String → String) (lc : LanguageCache)
    (I : String) (E : String → Option String) (v : ContainerInfo)
    (ops : List (String × (String → Option String) × ContainerInfo))
    (hops : ∀ op ∈ ops, generateKey sha op.1 op.2.1 ≠ generateKey sha I E)
    (E2 : String → Option String) (hE2 : ∀ k ∈ criticalEnvVars, E2 k = E k) :
    cacheGet sha (applySets sha (cacheSet sha lc I E v) ops) I E2 = some v ∧
    (∀ (I3 : String) (E3 : String → Option String) (v3 : ContainerInfo),
      generateKey sha I3 E3 = generateKey sha I E →
      cacheGet sha
        (cacheSet sha (applySets sha (cacheSet sha lc I E v) ops) I3 E3 v3) I E =
        some v3) := by
  have hkey : generateKey sha I E2 = generateKey sha I E := by
    unfold generateKey
    rw [keyMaterial_congr I E E2 hE2]
  constructor
  · have hc : cacheGet sha (applySets sha (cacheSet sha lc I E v) ops) I E2 =
        cacheGet sha (applySets sha (cacheSet sha lc I E v) ops) I E := by
      unfold cacheGet
      rw [hkey]
    rw [hc, cacheGet_applySets_ne sha ops _ I E hops,
      cacheGet_cacheSet_same sha lc I I E E v rfl]
  · intro I3 E3 v3 hk3
    exact cacheGet_cacheSet_same sha _ I3 I E3 E v3 hk3.symm

/-- A critical-env map recording only `NODE_VERSION=20`. -/
def nodeEnv : String → Option String :=
  fun k => if k == "NODE_VERSION" then some "20" else none

/-- The map `nodeEnv` plus an extra non-critical variable (`APP_MODE`). -/
def nodeEnvPlus : String → Option String :=
  fun k =>
    if k == "NODE_VERSION" then some "20"
    else if k == "APP_MODE" then some "dev" else none

/-- A cached detection value for the round-trip witness. -/
def nodeInfo : ContainerInfo :=
  { emptyContainerInfo with
    Image := "myorg/api:1.2", Language := "nodejs", Confidence := "high" }

/-- An overwriting detection value for the round-trip witness. -/
def nodeInfoLater : ContainerInfo :=
  { emptyContainerInfo with
    Image := "myorg/api:1.2", Language := "nodejs", Confidence := "medium" }

/-- An interleaved `Set` under a different key. -/
def otherImageOp : String × (String → Option String) × ContainerInfo :=
  ("other-image", fun _ => none, emptyContainerInfo)

/-- C8 witness: the round-trip theorem evaluated with the identity digest on a
concrete image, env maps and an interleaved foreign `Set`. -/
theorem cache_set_get_roundtrip_witness :
    cacheGet (fun s => s)
      (applySets (fun s => s)
        (cacheSet (fun s => s) NewLanguageCache "myorg/api:1.2" nodeEnv nodeInfo)
        [otherImageOp]) "myorg/api:1.2" nodeEnvPlus = some nodeInfo ∧
    cacheGet (fun s => s)
      (cacheSet (fun s => s)
        (applySets (fun s => s)
          (cacheSet (fun s => s) NewLanguageCache "myorg/api:1.2" nodeEnv nodeInfo)
          [otherImageOp]) "myorg/api:1.2" nodeEnv nodeInfoLater)
      "myorg/api:1.2" nodeEnv = some nodeInfoLater := by
  have h := cache_set_get_roundtrip (fun s => s) NewLanguageCache "myorg/api:1.2" nodeEnv
    nodeInfo [otherImageOp] (by decide) nodeEnvPlus (by decide)
  exact ⟨h.1, h.2 "myorg/api:1.2" nodeEnv nodeInfoLater rfl⟩

/-- Filtering out a key makes its lookup `none`. -/
lemma lookup_filter_self (l : List (String × WorkloadCacheEntry)) (key : String) :
    (l.filter (fun p => p.1 != key)).lookup key = none := by
  induction l with
  | nil => rfl
  | cons p rest ih =>
    by_cases hp : p.1 = key
    · have hb : (p.1 != key) = false := by simp [hp]
      simp only [List.filter_cons, hb]
      exact ih
    · have hb : (p.1 != key) = true := by simp [hp]
      have hk : (key == p.1) = false := by simp [Ne.symm hp]
      simp only [List.filter_cons, hb, if_true, List.lookup, hk]
      exact ih

/-- Filtering never makes an absent key present. -/
lemma lookup_filter_none (l : List (String × WorkloadCacheEntry))
    (q : String × WorkloadCacheEntry → Bool) (key : String)
    (h : l.lookup key = none) : (l.filter q).lookup key = none := by
  induction l with
  | nil => rfl
  | cons p rest ih =>
    have hk : (key == p.1) = false := by
      rcases Bool.eq_false_or_eq_true (key == p.1) with h2 | h2
      · simp [List.lookup, h2] at h
      · exact h2
    have hrest : rest.lookup key = none := by
      simpa [List.lookup, hk] using h
    rcases Bool.eq_false_or_eq_true (q p) with h2 | h2
    · simp only [List.filter_cons, h2, if_true, List.lookup, hk]
      exact ih hrest
    · simp only [List.filter_cons, h2]
      exact ih hrest

/-- A `RemoveWorkload` erases exactly its key from the workload index. -/
lemma getWorkload_removeWorkload_self (lc : LanguageCache) (ns n : String) :
    GetWorkload (RemoveWorkload lc ns n) ns n = none :=
  lookup_filter_self lc.workloadCache (workloadKey ns n)

/-- A `RemoveWorkload` keeps absent keys absent. -/
lemma getWorkload_removeWorkload_none (lc : LanguageCache) (ns2 n2 ns n : String)
    (h : GetWorkload lc ns n = none) :
    GetWorkload (RemoveWorkload lc ns2 n2) ns n = none :=
  lookup_filter_none lc.workloadCache _ (workloadKey ns n) h

/-- The reconciliation fold never re-adds a workload key that is already absent. -/
lemma reconcile_fold_none (api : K8sApi) (ws : List WorkloadCacheEntry)
    (acc : LanguageCache) (ns n : String) (h : GetWorkload acc ns n = none) :
    GetWorkload
      (ws.foldl
        (fun acc w =>
          if workloadExistsCheck api w then acc
          else RemoveWorkload acc w.Namespace w.WorkloadName)
        acc) ns n = none := by
  induction ws generalizing acc with
  | nil => exact h
  | cons x xs ih =>
    simp only [List.foldl_cons]
    rcases Bool.eq_false_or_eq_true (workloadExistsCheck api x) with h2 | h2
    · rw [h2]
      simp only [if_true]
      exact ih _ h
    · rw [h2]
      simp only [Bool.false_eq_true, if_false]
      exact ih _ (getWorkload_removeWorkload_none acc x.Namespace x.WorkloadName ns n h)

/-- Every workload of the sweep whose existence check fails ends up absent. -/
lemma reconcile_fold_removes (api : K8sApi) (ws : List WorkloadCacheEntry)
    (acc : LanguageCache) (w : WorkloadCacheEntry) (hw : w ∈ ws)
    (hcheck : workloadExistsCheck api w = false) :
    GetWorkload
      (ws.foldl
        (fun acc w =>
          if workloadExistsCheck api w then acc
          else RemoveWorkload acc w.Namespace w.WorkloadName)
        acc) w.Namespace w.WorkloadName = none := by
  induction ws generalizing acc with
  | nil => simp at hw
  | cons x xs ih =>
    simp only [List.foldl_cons]
    rcases List.mem_cons.mp hw with h2 | h2
    · rw [← h2, hcheck]
      simp only [Bool.false_eq_true, if_false]
      exact reconcile_fold_none api xs _ w.Namespace w.WorkloadName
        (getWorkload_removeWorkload_self acc w.Namespace w.WorkloadName)
    · exact ih _ h2

/-- C2 (amended): during a reconciliation sweep, a cached workload whose existence
check fails — which happens on ANY lookup error, transient API failures included,
since the code tests `err == nil`, and for any kind outside the four known ones —
is removed from the workload cache index.  An API error is treated as "the
workload is gone", not as "the workload still exists". -/
theorem reconcileCache_evicts_on_failed_check (api : K8sApi) (st : EBPFState)
    (w : WorkloadCacheEntry) (hw : w ∈ GetAllActiveWorkloads st.cache)
    (hcheck : workloadExistsCheck api w = false) :
    GetWorkload (reconcileCache api st).cache w.Namespace w.WorkloadName = none :=
  reconcile_fold_removes api (GetAllActiveWorkloads st.cache) st.cache w hw hcheck

/-- A Kubernetes API in which every lookup reports a transient failure. -/
def erroringApi : K8sApi :=
  { getDeployment := fun _ _ => Except.error "transient API failure",
    getDaemonSet := fun _ _ => Except.error "transient API failure",
    getReplicaSet := fun _ _ => Except.error "transient API failure",
    getStatefulSet := fun _ _ => Except.error "transient API failure",
    getPod := fun _ _ => Except.error "transient API failure" }

/-- A workload cache holding the single Deployment `prod/web`. -/
def prodWebCache : LanguageCache :=
  SetWorkload NewLanguageCache "prod" "web" "Deployment" []

/-- C2 counterexample: with the API erroring, the cached Deployment `prod/web` IS
removed by the sweep — the entry does not survive the failed lookup as the claim
asserts. -/
theorem reconcile_api_error_evicts_counterexample :
    (GetWorkload prodWebCache "prod" "web").isSome = true ∧
    GetWorkload
      (reconcileCache erroringApi { cache := prodWebCache, processedPods := [] }).cache
      "prod" "web" = none :=
  ⟨rfl, rfl⟩

/-- A workload cache holding the single DaemonSet `staging/api`. -/
def stagingApiCache : LanguageCache :=
  SetWorkload NewLanguageCache "staging" "api" "DaemonSet" []

/-- The `staging/api` workload entry. -/
def stagingApiEntry : WorkloadCacheEntry :=
  { Namespace := "staging", WorkloadName := "api", WorkloadKind := "DaemonSet",
    Containers := [] }

/-- C2 witness: the eviction theorem applied to a concrete erroring lookup. -/
theorem reconcileCache_evicts_on_failed_check_witness :
    GetWorkload
      (reconcileCache erroringApi { cache := stagingApiCache, processedPods := [] }).cache
      "staging" "api" = none := by
  have hw : stagingApiEntry ∈ GetAllActiveWorkloads stagingApiCache :=
    List.mem_singleton_self stagingApiEntry
  exact reconcileCache_evicts_on_failed_check erroringApi
    { cache := stagingApiCache, processedPods := [] } stagingApiEntry hw rfl

/-- C6 counterexample: `setupInformers` registers no StatefulSets watcher — only
Pods, Deployments, DaemonSets and ReplicaSets — so a StatefulSet deletion is
never received, contradicting the claimed five resource kinds. -/
theorem setupInformers_no_statefulset_counterexample :
    (setupInformers.map (fun reg => reg.resource)).contains WatchedResource.StatefulSets =
      false ∧
    setupInformers.map (fun reg => reg.resource) =
      [WatchedResource.Pods, WatchedResource.Deployments, WatchedResource.DaemonSets,
        WatchedResource.ReplicaSets] := by
  exact ⟨rfl, rfl⟩

/-- C6 (amended): the lifecycle informer registers delete watchers on exactly four
resource kinds — Pods, Deployments, DaemonSets, ReplicaSets (no StatefulSets) —
and every registered workload delete handler evicts the `namespace/name` entry
from the workload cache index while leaving the processed-pods set alone. -/
theorem setupInformers_registrations (reg : InformerRegistration)
    (hreg : reg ∈ setupInformers) :
    setupInformers.map (fun reg => reg.resource) =
      [WatchedResource.Pods, WatchedResource.Deployments, WatchedResource.DaemonSets,
        WatchedResource.ReplicaSets] ∧
    (reg.resource ≠ WatchedResource.Pods →
      ∀ (obj : ObjectMeta) (st : EBPFState),
        GetWorkload (reg.onDelete obj st).cache obj.Namespace obj.Name = none ∧
        (reg.onDelete obj st).processedPods = st.processedPods) := by
  refine ⟨rfl, ?_⟩
  intro hkind obj st
  simp only [setupInformers, List.mem_cons, List.not_mem_nil, or_false] at hreg
  rcases hreg with h | h | h | h
  · rw [h] at hkind
    exact absurd rfl hkind
  all_goals
    rw [h]
    exact ⟨getWorkload_removeWorkload_self st.cache obj.Namespace obj.Name, rfl⟩

/-- A detector state holding the Deployment `prod/web` and one processed pod. -/
def informerWitnessState : EBPFState :=
  { cache := SetWorkload NewLanguageCache "prod" "web" "Deployment" [],
    processedPods := ["prod/web-7f-abc"] }

/-- C6 witness: the registration theorem applied to the Deployments watcher and a
concrete delete event. -/
theorem setupInformers_registrations_witness :
    GetWorkload
      (onWorkloadDelete { Namespace := "prod", Name := "web" } informerWitnessState).cache
      "prod" "web" = none ∧
    (onWorkloadDelete { Namespace := "prod", Name := "web" }
      informerWitnessState).processedPods = ["prod/web-7f-abc"] := by
  have hreg :
      ({ resource := WatchedResource.Deployments, onDelete := onWorkloadDelete } :
        InformerRegistration) ∈ setupInformers :=
    List.mem_cons_of_mem _ (List.mem_cons_self _ _)
  have h := (setupInformers_registrations
    { resource := WatchedResource.Deployments, onDelete := onWorkloadDelete } hreg).2
    (by intro h2; exact absurd h2 (by simp)) { Namespace := "prod", Name := "web" }
    informerWitnessState
  exact h

/-- A proc oracle whose operations are never consulted (cache-hit scenarios). -/
def noopProc : ProcOracle :=
  { GetContainerPIDs := fun _ => Except.error "unused",
    GetProcessContext := fun _ => Except.error "unused" }

/-- A deployment-name oracle constantly answering `web`. -/
def constDeploymentOracle : DeploymentNameOracle :=
  { getPodDeploymentName := fun _ _ => "web" }

/-- A detector with no inspectors (never consulted in cache-hit scenarios). -/
def emptyDetector : LanguageDetector := { inspectors := [] }

/-- The `ContainerInfo` cached for image `img` before the hit, stamped with the
pod it was first detected in. -/
def cachedNodeInfo : ContainerInfo :=
  { emptyContainerInfo with
    PodName := "old-pod", Namespace := "prod", ContainerName := "srv", Image := "img",
    Language := "nodejs", Confidence := "high", DeploymentName := "old-deploy" }

/-- An image cache holding `cachedNodeInfo` under key (img, no critical env). -/
def hitCache : LanguageCache :=
  cacheSet (fun s => s) NewLanguageCache "img" (fun _ => none) cachedNodeInfo

/-- A running pod whose single container hits the cache entry of `hitCache`. -/
def hitPod : PodData :=
  { Name := "new-pod", Namespace := "prod", PhaseRunning := true,
    Containers := [{ Name := "srv", Image := "img", Env := [] }],
    ContainerStatuses := [], OwnerKind := some "ReplicaSet" }

/-- The image cache after `DetectLanguageForPod` processed `hitPod` on a cache hit. -/
def cacheAfterHit : LanguageCache :=
  match DetectLanguageForPod (fun s => s) noopProc emptyDetector constDeploymentOracle 7
      hitCache hitPod with
  | Except.ok p => p.1
  | Except.error _ => NewLanguageCache

/-- C3: the cache-hit path of `DetectLanguageForPod` does NOT work on a clone.
`Get` hands back a pointer into the stored entry, and the pod/time/deployment
stampings write through it: after the hit, the entry stored under (img, env) has
`PodName` `new-pod` instead of its prior `old-pod` — the stored entry changed. -/
theorem cache_hit_mutates_stored_entry :
    (cacheGet (fun s => s) hitCache "img" (fun _ => none)).map ContainerInfo.PodName =
      some "old-pod" ∧
    (cacheGet (fun s => s) cacheAfterHit "img" (fun _ => none)).map ContainerInfo.PodName =
      some "new-pod" ∧
    (cacheGet (fun s => s) cacheAfterHit "img" (fun _ => none)).map
      ContainerInfo.DeploymentName = some "web" :=
  ⟨rfl, rfl, rfl⟩

/-- C4 (amended): a container whose extracted containerID is empty makes
`detectContainerLanguage` return the `container ID not found` error, and on a
cache miss the `DetectLanguageForPod` loop logs it and continues: the cache and
the results are left exactly as they were — no `Unknown/low` result is emitted
for that container (and no crash occurs; the embedding is a total function). -/
theorem emptyContainerID_skips_container (sha : String → String) (proc : ProcOracle)
    (det : LanguageDetector) (k8s : DeploymentNameOracle) (now : Nat) (pod : PodData)
    (container : ContainerSpec) (ownerKind : String)
    (acc : LanguageCache × List ContainerInfo)
    (hid : findContainerID pod.ContainerStatuses container.Name = "")
    (hmiss : cacheGet sha acc.1 container.Image (buildEnvVars container.Env) = none) :
    detectContainerLanguage proc det now pod container =
      Except.error ("container ID not found for " ++ container.Name) ∧
    detectForContainer sha proc det k8s now pod ownerKind acc container = acc := by
  have h1 : detectContainerLanguage proc det now pod container =
      Except.error ("container ID not found for " ++ container.Name) := by
    unfold detectContainerLanguage
    rw [hid]
    rfl
  refine ⟨h1, ?_⟩
  unfold detectForContainer
  simp only [hmiss, h1]

/-- A running pod whose single container status carries an empty containerID. -/
def emptyIDPod : PodData :=
  { Name := "p1", Namespace := "default", PhaseRunning := true,
    Containers := [{ Name := "c1", Image := "img-x", Env := [] }],
    ContainerStatuses := [{ Name := "c1", ContainerID := "" }], OwnerKind := none }

/-- C4 counterexample: on the empty-containerID pod, per-pod detection produces NO
result at all for the container (the result list is empty and the loop reports
the error), not an `Unknown/low` entry as the claim states. -/
theorem emptyContainerID_no_result_counterexample :
    DetectLanguageForPod (fun s => s) noopProc emptyDetector constDeploymentOracle 0
      NewLanguageCache emptyIDPod = Except.ok (NewLanguageCache, []) ∧
    detectContainerLanguage noopProc emptyDetector 0 emptyIDPod
      { Name := "c1", Image := "img-x", Env := [] } =
      Except.error "container ID not found for c1" :=
  ⟨rfl, rfl⟩

/-- C4 witness: the skip theorem evaluated on the empty-containerID pod. -/
theorem emptyContainerID_skips_container_witness :
    detectContainerLanguage noopProc emptyDetector 3 emptyIDPod
      { Name := "c1", Image := "img-x", Env := [] } =
      Except.error ("container ID not found for " ++ "c1") ∧
    detectForContainer (fun s => s) noopProc emptyDetector constDeploymentOracle 3
      emptyIDPod "Pod" (NewLanguageCache, []) { Name := "c1", Image := "img-x", Env := [] } =
      (NewLanguageCache, []) :=
  emptyContainerID_skips_container (fun s => s) noopProc emptyDetector
    constDeploymentOracle 3 emptyIDPod { Name := "c1", Image := "img-x", Env := [] }
    "Pod" (NewLanguageCache, []) rfl rfl

/-- The trace `sendAllCachedWorkloadsActions` on the empty snapshot does nothing. -/
lemma sendAll_nil : sendAllCachedWorkloadsActions [] = [] := by
  rw [sendAllCachedWorkloadsActions]

/-- One chunking step of `sendAllCachedWorkloadsActions`. -/
lemma sendAll_cons (c : ContainerInfo) (rest : List ContainerInfo) :
    sendAllCachedWorkloadsActions (c :: rest) =
      ClientAction.flush "cached_workloads_sync" ((c :: rest).take 10) ::
        sendAllCachedWorkloadsActions ((c :: rest).drop 10) := by
  rw [sendAllCachedWorkloadsActions]

/-- Every flush of the cache-sync path carries reason `cached_workloads_sync` and
runs at the ambient lock depth (the path takes no lock). -/
lemma sendAll_flushDepths (n : Nat) (l : List ContainerInfo) (hl : l.length ≤ n)
    (d : Nat) (p : String × Nat)
    (hp : p ∈ flushDepthsAux d (sendAllCachedWorkloadsActions l)) :
    p.1 = "cached_workloads_sync" ∧ p.2 = d := by
  induction n generalizing l d with
  | zero =>
    have hnil : l = [] := List.eq_nil_of_length_eq_zero (Nat.le_zero.mp hl)
    rw [hnil, sendAll_nil] at hp
    simp [flushDepthsAux] at hp
  | succ n ih =>
    cases l with
    | nil =>
      rw [sendAll_nil] at hp
      simp [flushDepthsAux] at hp
    | cons c rest =>
      rw [sendAll_cons] at hp
      simp only [flushDepthsAux, List.mem_cons] at hp
      rcases hp with hp | hp
      · rw [hp]
        exact ⟨rfl, rfl⟩
      · have hlen : ((c :: rest).drop 10).length ≤ n := by
          simp only [List.length_drop, List.length_cons]
          have := Nat.succ_le_succ_iff.mp hl
          omega
        exact ih _ hlen _ hp

/-- C5 (amended): across the event loop's four arms, a flush runs outside the
`BatchMutex` exactly when its reason is `queue_size_threshold_reached` (the
queue-item arm unlocks before calling `SendBatch`) or `cached_workloads_sync`
(the cache-sync arm takes no lock); the `periodic_flush_interval` and
`application_shutdown` flushes execute between `Lock` and `Unlock`, i.e. with
the mutex held across the RPC call. -/
theorem flush_lock_discipline (queueSize : Nat) (rpcClient : Option Unit)
    (batch : List ContainerInfo) (ev : ClientEvent) (p : String × Nat)
    (hp : p ∈ flushDepths (handleClientEvent queueSize rpcClient batch ev).1) :
    p.2 = 0 ↔
      (p.1 = "queue_size_threshold_reached" ∨ p.1 = "cached_workloads_sync") := by
  cases ev with
  | queueItem result =>
    by_cases hth : (batch ++ [result]).length ≥ queueSize
    · simp only [handleClientEvent, if_pos hth, flushDepths, flushDepthsAux,
        List.mem_cons, List.not_mem_nil, or_false] at hp
      rw [hp]
      decide
    · simp only [handleClientEvent, if_neg hth, flushDepths, flushDepthsAux,
        List.not_mem_nil] at hp
  | periodicTick =>
    by_cases hb : batch.length > 0
    · simp only [handleClientEvent, if_pos hb, flushDepths, flushDepthsAux,
        List.mem_cons, List.not_mem_nil, or_false] at hp
      rw [hp]
      decide
    · simp only [handleClientEvent, if_neg hb, flushDepths, flushDepthsAux,
        List.not_mem_nil] at hp
  | cacheSyncTick allContainers =>
    have h := sendAll_flushDepths allContainers.length allContainers (Nat.le_refl _) 0 p
      (by simpa [handleClientEvent, flushDepths] using hp)
    rw [h.2, h.1]
    simp
  | contextCancelled =>
    by_cases hb : batch.length > 0
    · cases rpcClient with
      | none =>
        simp only [handleClientEvent, if_pos hb, Option.isSome_none, Bool.false_eq_true,
          if_false, List.append_nil, flushDepths, flushDepthsAux, List.mem_cons,
          List.not_mem_nil, or_false] at hp
        rw [hp]
        decide
      | some u =>
        simp only [handleClientEvent, if_pos hb, Option.isSome_some, if_true,
          flushDepths, flushDepthsAux, List.mem_cons, List.not_mem_nil, or_false] at hp
        rw [hp]
        decide
    · cases rpcClient with
      | none =>
        simp only [handleClientEvent, if_neg hb, Option.isSome_none, Bool.false_eq_true,
          if_false, List.append_nil, List.nil_append, flushDepths, flushDepthsAux,
          List.not_mem_nil] at hp
      | some u =>
        simp only [handleClientEvent, if_neg hb, Option.isSome_some, if_true,
          List.nil_append, flushDepths, flushDepthsAux, List.not_mem_nil] at hp

/-- A queue item used in the flush-path scenarios. -/
def itemA : ContainerInfo := { emptyContainerInfo with PodName := "a" }

/-- C5 counterexample: on the periodic-ticker arm (and the shutdown arm) with a
non-empty batch, the single flush executes at lock depth 1 — `SendBatch` (and its
remote call) runs while `BatchMutex` is held, contradicting the claim that the
mutex is released before every flush. -/
theorem periodic_flush_holds_mutex_counterexample :
    flushDepths (handleClientEvent 5 (some ()) [itemA] ClientEvent.periodicTick).1 =
      [("periodic_flush_interval", 1)] ∧
    flushDepths (handleClientEvent 5 (some ()) [itemA] ClientEvent.contextCancelled).1 =
      [("application_shutdown", 1)] :=
  ⟨rfl, rfl⟩

/-- C5 witness: the lock-discipline theorem applied to a queue-size-threshold
flush on a concrete event. -/
theorem flush_lock_discipline_witness :
    (("queue_size_threshold_reached", (0 : Nat)).2 = 0 ↔
      (("queue_size_threshold_reached", (0 : Nat)).1 = "queue_size_threshold_reached" ∨
        ("queue_size_threshold_reached", (0 : Nat)).1 = "cached_workloads_sync")) :=
  flush_lock_discipline 1 none [] (ClientEvent.queueItem itemA)
    ("queue_size_threshold_reached", 0) (by decide)

/-- The call/retry section of `SendBatch`: at most two remote calls; the retry
happens only after a first-call error and a successful reconnect; two failures
drop the batch (no sent log) with the reconnection error logged. -/
lemma sendBatchCall_spec (net : RpcOracle) (batch : List ContainerInfo) :
    countRpcCalls (sendBatchCall net batch).2 ≤ 2 ∧
    (RpcEvent.rpcCall 1 ∈ (sendBatchCall net batch).2 →
      (∃ e, net.call 0 = Except.error e) ∧ net.dial 1 = Except.ok ()) ∧
    ((∃ e, net.call 0 = Except.error e) → net.dial 1 = Except.ok () →
      (∃ e, net.call 1 = Except.error e) →
      hasBatchSent (sendBatchCall net batch).2 = false ∧
      RpcEvent.errorLog "Failed to send batch after reconnection" ∈
        (sendBatchCall net batch).2) := by
  cases hc0 : net.call 0 with
  | ok reply =>
    refine ⟨?_, ?_, ?_⟩
    · simp [sendBatchCall, hc0, countRpcCalls]
    · intro hmem
      simp [sendBatchCall, hc0] at hmem
    · intro ⟨e, he⟩
      exact absurd he (by simp)
  | error e0 =>
    cases hd1 : net.dial 1 with
    | error e1 =>
      refine ⟨?_, ?_, ?_⟩
      · simp [sendBatchCall, hc0, hd1, countRpcCalls]
      · intro hmem
        simp [sendBatchCall, hc0, hd1] at hmem
      · intro _ hd1ok
        exact absurd hd1ok (by simp)
    | ok u =>
      cases hc1 : net.call 1 with
      | ok reply =>
        refine ⟨?_, ?_, ?_⟩
        · simp [sendBatchCall, hc0, hd1, hc1, countRpcCalls]
        · intro _
          exact ⟨⟨e0, rfl⟩, rfl⟩
        · intro _ _ ⟨e, he⟩
          exact absurd he (by simp)
      | error e1 =>
        refine ⟨?_, ?_, ?_⟩
        · simp [sendBatchCall, hc0, hd1, hc1, countRpcCalls]
        · intro _
          exact ⟨⟨e0, rfl⟩, rfl⟩
        · intro _ _ _
          constructor
          · simp [sendBatchCall, hc0, hd1, hc1, hasBatchSent]
          · simp [sendBatchCall, hc0, hd1, hc1]

/-- C9: `SendBatch` never sends an empty batch (it returns with no event); it
performs the remote `PushDetectionResults` call at most twice; the second call
happens only after the first errored and the reconnect succeeded; and when both
calls fail (connection available, reconnect succeeding), the batch is dropped —
no sent log — with the error-log entry recorded. -/
theorem sendBatch_retry_policy (net : RpcOracle) (rpcClient : Option Unit)
    (batch : List ContainerInfo) :
    (batch = [] → sendBatch net rpcClient batch = (rpcClient, [])) ∧
    countRpcCalls (sendBatch net rpcClient batch).2 ≤ 2 ∧
    (RpcEvent.rpcCall 1 ∈ (sendBatch net rpcClient batch).2 →
      (∃ e, net.call 0 = Except.error e) ∧ net.dial 1 = Except.ok ()) ∧
    (batch ≠ [] → (rpcClient = some () ∨ net.dial 0 = Except.ok ()) →
      (∃ e, net.call 0 = Except.error e) → net.dial 1 = Except.ok () →
      (∃ e, net.call 1 = Except.error e) →
      hasBatchSent (sendBatch net rpcClient batch).2 = false ∧
      RpcEvent.errorLog "Failed to send batch after reconnection" ∈
        (sendBatch net rpcClient batch).2) := by
  cases batch with
  | nil =>
    refine ⟨fun _ => ?_, ?_, ?_, ?_⟩
    · rfl
    · simp [sendBatch, countRpcCalls]
    · intro hmem
      simp [sendBatch] at hmem
    · intro hne
      exact absurd rfl hne
  | cons c cs =>
    have hlen : (((c :: cs).length == 0) : Bool) = false := by simp
    have hcall := sendBatchCall_spec net (c :: cs)
    cases rpcClient with
    | some u =>
      have hsb : sendBatch net (some u) (c :: cs) = sendBatchCall net (c :: cs) := by
        simp [sendBatch, hlen]
      rw [hsb]
      exact ⟨fun h => absurd h (by simp), hcall.1, hcall.2.1,
        fun _ _ => hcall.2.2⟩
    | none =>
      cases hd0 : net.dial 0 with
      | ok u =>
        have hsb : sendBatch net none (c :: cs) = sendBatchCall net (c :: cs) := by
          simp [sendBatch, hlen, hd0]
        rw [hsb]
        exact ⟨fun h => absurd h (by simp), hcall.1, hcall.2.1,
          fun _ _ => hcall.2.2⟩
      | error e =>
        have hsb : sendBatch net none (c :: cs) =
            (none, [RpcEvent.errorLog "Failed to establish RPC connection"]) := by
          simp [sendBatch, hlen, hd0]
        rw [hsb]
        refine ⟨fun h => absurd h (by simp), ?_, ?_, ?_⟩
        · simp [countRpcCalls]
        · intro hmem
          simp at hmem
        · intro _ hconn
          rcases hconn with h2 | h2
          · exact absurd h2 (by simp)
          · exact absurd h2 (by simp)

/-- An RPC world in which every dial succeeds and every remote call fails. -/
def failingCallsNet : RpcOracle :=
  { dial := fun _ => Except.ok (), call := fun _ => Except.error "connection reset" }

/-- C9 witness: the retry-policy theorem on a concrete always-failing remote —
both calls are made, the batch is dropped and the error log entry is present. -/
theorem sendBatch_retry_policy_witness :
    hasBatchSent (sendBatch failingCallsNet (some ()) [itemA]).2 = false ∧
    RpcEvent.errorLog "Failed to send batch after reconnection" ∈
      (sendBatch failingCallsNet (some ()) [itemA]).2 :=
  (sendBatch_retry_policy failingCallsNet (some ()) [itemA]).2.2.2
    (by simp) (Or.inl rfl) ⟨"connection reset", rfl⟩ rfl ⟨"connection reset", rfl⟩

end Polylang
